import Mathlib

/-!
Shallow embedding of the UE5Coro promise/scheduling core:

* `FAggregateAwaiter` / `WhenAny` / `WhenAll` (AggregateAwaiters.h)
* `FLatentPromise` and the `FPendingLatentCoroutine` bridge
  (latent promise translation unit)
* `TAbilityPromise` (AbilityPromises.cpp)

Machine `int`s are modelled as `Int` (the counters involved never approach
the 32-bit range in the properties considered), pointers as `Option`-tagged
identifiers, and the C++ `checkf`/`ensureMsgf` fatal assertions as explicit
error constructors.
-/

/-! ## Aggregate awaiters (AggregateAwaiters.h) -/

/-- State of `FAggregateAwaiter::FData` together with the observable resume
count of the parent coroutine.  `count`, `index` mirror the `int` fields;
`handle` mirrors the `FOptionalHandleVariant` (`none` = `std::monostate`,
i.e. the parent has not suspended on the aggregate yet); `resumes` counts
how many times `Handle.promise().Resume()` has been executed. -/
structure AggState where
  count : Int
  index : Int
  handle : Option Unit
  resumes : Nat
deriving DecidableEq, Repr

/-- The constructor `FData::FData(int Count)`: `Count` from the argument,
`Index = -1`, `Handle` default-constructed to the monostate. -/
def aggInit (count : Int) : AggState :=
  { count := count, index := -1, handle := none, resumes := 0 }

/-- The argument `WhenAny` passes for `Count`:
`sizeof...(Args) ? 1 : 0`. -/
def whenAnyInitialCount (n : Nat) : Int :=
  if n ≠ 0 then 1 else 0

/-- The argument `WhenAll` passes for `Count`: `sizeof...(Args)`. -/
def whenAllInitialCount (n : Nat) : Int :=
  (n : Int)

/-- The tail of `FAggregateAwaiter::Consume(Data, Index, Awaiter)` that runs
once the child awaiter at position `i` completes: under the lock, decrement
`Count`; if it did not reach zero, `co_return`; otherwise record `Index`,
read the handle, and resume it via `std::visit` unless it is still the
monostate. -/
def consumeFinish (i : Int) (s : AggState) : AggState :=
  let c := s.count - 1
  if c ≠ 0 then { s with count := c }
  else
    { count := c, index := i, handle := s.handle,
      resumes := s.resumes + (if s.handle.isSome then 1 else 0) }

/-- Process a sequence of child completions (the temporal order in which the
`Consume` sub-coroutines reach their decrement). -/
def aggRun (s : AggState) (order : List Int) : AggState :=
  order.foldl (fun t i => consumeFinish i t) s

/-- Modelled from the spec: `FAggregateAwaiter::await_ready` (declared in
AggregateAwaiters.h, body not in the sample) — "readiness is checked
separately before suspension is attempted, covering the case where all
children finish synchronously before the parent even suspends", i.e. the
awaiter is ready exactly when the counter has already reached (or passed)
zero. -/
def aggAwait_ready (s : AggState) : Bool :=
  s.count ≤ 0

/-- Modelled from the spec: `FAggregateAwaiter::await_suspend` (declared in
AggregateAwaiters.h, body not in the sample) — suspension records "a
resumable handle to the parent" in the variant. -/
def aggAwait_suspend (s : AggState) : AggState :=
  { s with handle := some () }

/-- Modelled from the spec: `FAggregateAwaiter::GetResumerIndex` (declared in
AggregateAwaiters.h, body not in the sample) — "Resume value for “Any” is
the winning child's index", the index recorded by the child that reached
zero. -/
def getResumerIndex (s : AggState) : Int :=
  s.index

/-- The body of `FAnyAwaiter::await_resume`: `return GetResumerIndex();`. -/
def anyAwait_resume (s : AggState) : Int :=
  getResumerIndex s

/-! ## Latent coroutine start (`FLatentPromise::initial_suspend` and
`FInitialSuspend`, AsyncCoroutine.h) -/

/-- The struct `FLatentActionInfo` as used by the latent promise: the linkage triple
plus the callback target.  `callbackTargetValid` models `IsValid(...)` on
the target `UObject*`. -/
structure FLatentActionInfo where
  executionFunction : String
  linkage : Int
  callbackTarget : Nat
  callbackTargetValid : Bool
  uuid : Int
deriving DecidableEq, Repr

/-- The enum `FInitialSuspend::EAction`. -/
inductive EAction where
  | Resume
  | Destroy
deriving DecidableEq, Repr

/-- The latent action manager's pending-action store, keyed by
(callback target, linkage id) as used by `FindExistingAction` /
`AddNewAction`. -/
abbrev LAMState := List (Nat × Int)

/-- The query `LAM.FindExistingAction<FPendingLatentCoroutine>(CallbackTarget,
UUID)`, modelled as key membership in the pending-action store. -/
def findExistingAction (lam : LAMState) (target : Nat) (uuid : Int) : Bool :=
  decide ((target, uuid) ∈ lam)

/-- The body of `FLatentPromise::initial_suspend()`: a duplicate of
(target, UUID) or an
invalid callback target yields `{FInitialSuspend::Destroy}` without touching
the manager; otherwise `AddNewAction` registers the pending bridge object
and `{FInitialSuspend::Resume}` is returned. -/
def initialSuspend (lam : LAMState) (info : FLatentActionInfo) :
    EAction × LAMState :=
  if findExistingAction lam info.callbackTarget info.uuid then
    (EAction.Destroy, lam)
  else if !info.callbackTargetValid then
    (EAction.Destroy, lam)
  else
    (EAction.Resume, (info.callbackTarget, info.uuid) :: lam)

/-- Observable outcome of `FInitialSuspend::await_suspend`. -/
inductive EStartOutcome where
  | BodyResumed
  | FrameDestroyed
deriving DecidableEq, Repr

/-- The switch in `FInitialSuspend::await_suspend(Handle)`: `Resume` resumes
the promise
(the body starts), `Destroy` destroys the coroutine frame. -/
def awaitSuspendOutcome : EAction → EStartOutcome
  | EAction.Resume => EStartOutcome.BodyResumed
  | EAction.Destroy => EStartOutcome.FrameDestroyed

/-- A latent coroutine start: `initial_suspend` computes the action, and the
compiler-inserted `co_await` on the returned `FInitialSuspend` acts on it. -/
def latentStart (lam : LAMState) (info : FLatentActionInfo) :
    EStartOutcome × LAMState :=
  let r := initialSuspend lam info
  (awaitSuspendOutcome r.1, r.2)

/-! ## FLatentPromise state (latent promise translation unit) -/

/-- The two bits of the atomic `LatentFlags` field, modelled as a record:
`LF_Detached` and `LF_InFinalSuspend`. -/
structure LatentFlags where
  detached : Bool
  inFinalSuspend : Bool
deriving DecidableEq, Repr

/-- The enum `ELatentExitReason` as used by the sample: `Normal` plus the two reasons
set by the bridge's notification callbacks. -/
inductive ELatentExitReason where
  | Normal
  | ActionAborted
  | ObjectDestroyed
deriving DecidableEq, Repr

/-- The `FLatentPromise` fields the state machine touches: `LatentFlags`,
`bCanceled`, `ExitReason`. -/
structure LatentPromiseState where
  flags : LatentFlags
  bCanceled : Bool
  exitReason : ELatentExitReason
deriving DecidableEq, Repr

/-- The body of `FLatentPromise::AttachToGameThread()`:
`LatentFlags &= ~LF_Detached`
(caller must be on the game thread; the callers modelled here all are). -/
def attachToGameThread (s : LatentPromiseState) : LatentPromiseState :=
  { s with flags := { s.flags with detached := false } }

/-- The body of `FLatentPromise::DetachFromGameThread()`:
`LatentFlags |= LF_Detached`. -/
def detachFromGameThread (s : LatentPromiseState) : LatentPromiseState :=
  { s with flags := { s.flags with detached := true } }

/-- The body of `FLatentPromise::final_suspend()`:
`LatentFlags = LF_InFinalSuspend`, an
unconditional overwrite of the whole flags field. -/
def finalSuspend (s : LatentPromiseState) : LatentPromiseState :=
  { s with flags := { detached := false, inFinalSuspend := true } }

/-- Result of `FLatentPromise::Resume(bBypassCancellationHolds)` at the
latent layer: either the bypass `checkf` failed, or the call returned early
because ownership is borrowed (detached), or it fell through to
`FPromise::Resume` with the (possibly re-attached) state. -/
inductive LatentResumeResult where
  | checkFailed
  | deferred
  | delegated (s : LatentPromiseState) (bypass : Bool)
deriving DecidableEq, Repr

/-- The body of `FLatentPromise::Resume(bBypassCancellationHolds)`: a bypass
request
checks it is on the game thread with `bCanceled` set and returns early if
`LF_Detached` is held (the guaranteed future `Resume` will handle it);
otherwise, a detached promise on the game thread re-attaches, and
`FPromise::Resume` runs on the resulting state. -/
def latentResume (onGameThread bypass : Bool) (s : LatentPromiseState) :
    LatentResumeResult :=
  if bypass ∧ ¬(onGameThread ∧ s.bCanceled) then LatentResumeResult.checkFailed
  else if bypass ∧ s.flags.detached then LatentResumeResult.deferred
  else
    let s' := if s.flags.detached ∧ onGameThread then attachToGameThread s else s
    LatentResumeResult.delegated s' bypass

/-- Modelled from the spec: the base `FPromise::Resume` (not in the sample)
— "cancellation only takes effect at the next safe reattachment point or
next controlled resume": a resume that reaches the base layer destroys an
attached canceled coroutine instead of running the body. -/
inductive BaseResumeEffect where
  | destroyedByCancellation
  | ranBody
deriving DecidableEq, Repr

/-- Modelled from the spec: the cancellation processing the base resume
performs on the state handed over by `FLatentPromise::Resume`. -/
def basePromiseResume (s : LatentPromiseState) : BaseResumeEffect :=
  if s.bCanceled then BaseResumeEffect.destroyedByCancellation
  else BaseResumeEffect.ranBody

/-- The `FLatentResponse` operations the sample uses: `DoneIf(true)` sets
`done`; `TriggerLink` appends the linkage triple. -/
structure FLatentResponse where
  done : Bool
  triggeredLinks : List (String × Int × Nat)
deriving DecidableEq, Repr

/-- The body of `FLatentPromise::Respond(Response, LatentInfo)`: reads the
flags once;
calls `Response.DoneIf(true)` when `bCanceled && !bDetached || bFinalSuspend`
(cancellations are implicitly held until re-attachment), and
`Response.TriggerLink(ExecutionFunction, Linkage, CallbackTarget)` when
final suspend was reached. -/
def respond (s : LatentPromiseState) (info : FLatentActionInfo)
    (r : FLatentResponse) : FLatentResponse :=
  let bDetached := s.flags.detached
  let bFinalSuspend := s.flags.inFinalSuspend
  let r1 := if (s.bCanceled ∧ ¬bDetached) ∨ bFinalSuspend then
              { r with done := true }
            else r
  if bFinalSuspend then
    { r1 with triggeredLinks := r1.triggeredLinks ++
        [(info.executionFunction, info.linkage, info.callbackTarget)] }
  else r1

/-- A fresh `FLatentResponse` at the start of a tick. -/
def freshResponse : FLatentResponse :=
  { done := false, triggeredLinks := [] }

/-- The effect of `Promise->Resume()` inside `UpdateOperation`: the latent
`Resume` re-attaches (the tick runs on the game thread), then the body runs
until its next suspension point; the body's behaviour is arbitrary, so it is
a parameter returning the promise state it leaves behind and the awaiter it
may have installed for the next tick (`none` if it installed none). -/
def resumeThenBody (body : LatentPromiseState → LatentPromiseState × Option Bool)
    (s : LatentPromiseState) : LatentPromiseState × Option Bool :=
  body (if s.flags.detached then attachToGameThread s else s)

/-- The tick `FPendingLatentCoroutine::UpdateOperation(Response)`: with a
detached
(null) promise back-pointer, `Response.DoneIf(true)` and return; otherwise,
if there is a current awaiter and `ShouldResume()` holds, clear it and
resume the promise (which may install a new awaiter); then
`Promise->Respond`.  `aw` is the current awaiter (`some b` = an awaiter
whose `ShouldResume()` returns `b`, `none` = no current awaiter). -/
def updateOperation (body : LatentPromiseState → LatentPromiseState × Option Bool)
    (promiseLive : Bool) (s : LatentPromiseState) (aw : Option Bool)
    (info : FLatentActionInfo) :
    LatentPromiseState × Option Bool × FLatentResponse :=
  if ¬promiseLive then (s, aw, { done := true, triggeredLinks := [] })
  else
    let step := if aw = some true then resumeThenBody body s else (s, aw)
    (step.1, step.2, respond step.1 info freshResponse)

/-! ## ThreadSafeDestroy and the exit-reason scratch global
(`FLatentPromise::ThreadSafeDestroy`, `FLatentPromise::~FLatentPromise`) -/

/-- The process-global scratch variable `GLatentExitReason`. -/
structure GlobalState where
  gLatentExitReason : ELatentExitReason
deriving DecidableEq, Repr

/-- The destructor `FLatentPromise::~FLatentPromise()`: runs on the game
thread and resets
`GLatentExitReason = ELatentExitReason::Normal`.  (The uncaught-exception
branch additionally detaches the bridge's back-pointer; it does not touch
the global again.) -/
def latentPromiseDtor (_g : GlobalState) : GlobalState :=
  { gLatentExitReason := ELatentExitReason.Normal }

/-- The call `Handle.destroy()` on a latent coroutine: the frame's local destructors
run (they may read `GLatentExitReason` but do not write it), then the
promise destructor runs. -/
def handleDestroy (g : GlobalState) : GlobalState :=
  latentPromiseDtor g

/-- Outcome of `FLatentPromise::ThreadSafeDestroy()`. -/
inductive TSDOutcome where
  | reposted
  | destroyed (g : GlobalState) (assertHeld : Bool)
deriving DecidableEq, Repr

/-- The body of `FLatentPromise::ThreadSafeDestroy()`: off the game thread
it re-posts
itself via `AsyncTask` and returns without destroying anything; on the game
thread it writes `GLatentExitReason = ExitReason`, destroys the handle, and
`checkf`s that the global was restored to `Normal`. -/
def threadSafeDestroy (onGameThread : Bool) (exitReason : ELatentExitReason)
    (_g : GlobalState) : TSDOutcome :=
  if ¬onGameThread then TSDOutcome.reposted
  else
    let g1 : GlobalState := { gLatentExitReason := exitReason }
    let g2 := handleDestroy g1
    TSDOutcome.destroyed g2 (g2.gLatentExitReason = ELatentExitReason.Normal)

/-! ## SetExitReason and the bridge's notification callbacks -/

/-- Result of `FLatentPromise::SetExitReason(Reason)`: the `checkf` that the
current reason is still `Normal`, then the write. -/
inductive SetExitResult where
  | ok (newReason : ELatentExitReason)
  | assertFailed
deriving DecidableEq, Repr

/-- The body of `FLatentPromise::SetExitReason(Reason)`:
`checkf(ExitReason == ELatentExitReason::Normal, ...)` then
`ExitReason = Reason`. -/
def setExitReason (reason cur : ELatentExitReason) : SetExitResult :=
  if cur = ELatentExitReason.Normal then SetExitResult.ok reason
  else SetExitResult.assertFailed

/-- The callback `FPendingLatentCoroutine::NotifyActionAborted()`: with a
live promise,
`SetExitReason(ActionAborted)`; otherwise nothing. -/
def notifyActionAborted (promiseLive : Bool) (cur : ELatentExitReason) :
    SetExitResult :=
  if promiseLive then setExitReason ELatentExitReason.ActionAborted cur
  else SetExitResult.ok cur

/-- The callback `FPendingLatentCoroutine::NotifyObjectDestroyed()`: with a
live promise,
`SetExitReason(ObjectDestroyed)`; otherwise nothing. -/
def notifyObjectDestroyed (promiseLive : Bool) (cur : ELatentExitReason) :
    SetExitResult :=
  if promiseLive then setExitReason ELatentExitReason.ObjectDestroyed cur
  else SetExitResult.ok cur

/-! ## Construction-time world resolution (`FLatentPromise::Init` overloads
in AsyncCoroutine.h and the non-template `Init` in the translation unit) -/

/-- A latent coroutine constructor argument as the `Init` overload chain
classifies it: convertible to `const UObject&` (carrying the result of
`GetWorld()`, possibly null), convertible to `FLatentActionInfo`, or
anything else. -/
inductive CtorArg where
  | obj (world : Option Nat)
  | latentInfo
  | other
deriving DecidableEq, Repr

/-- The world-resolution effect of the `Init(const UObject*, T&...)` /
`Init(FLatentActionInfo, T&...)` / `Init(T&, A&...)` overload chain: each
`UObject`-convertible argument runs
`if (!World && WorldContext) World = WorldContext->GetWorld()` ("null is
fine"); the other overloads leave `World` alone. -/
def scanWorld (world : Option Nat) : List CtorArg → Option Nat
  | [] => world
  | CtorArg.obj ow :: rest =>
      scanWorld (if world = none then ow else world) rest
  | CtorArg.latentInfo :: rest => scanWorld world rest
  | CtorArg.other :: rest => scanWorld world rest

/-- Result of the base `Init()`: either a resolved world or the fatal
`checkf(World, "Could not determine world for latent coroutine")`. -/
inductive InitResult where
  | ok (world : Nat)
  | fatalNoWorld
deriving DecidableEq, Repr

/-- World resolution over a whole construction: the template `Init` chain
scans the arguments left to right starting from `World = nullptr`, then the
base `Init()` falls back to `GWorld` if still null and `checkf`s that a
world was found. -/
def resolveWorld (gworld : Option Nat) (args : List CtorArg) : InitResult :=
  match scanWorld none args with
  | some w => InitResult.ok w
  | none =>
      match gworld with
      | some w => InitResult.ok w
      | none => InitResult.fatalNoWorld

/-- The world yielded by the first `UObject`-convertible argument, ignoring
whether its `GetWorld()` is null — the resolution rule exactly as the claim
words it ("resolved from the first owning-object argument encountered"). -/
def firstObjArgWorld : List CtorArg → Option Nat
  | [] => none
  | CtorArg.obj ow :: _ => ow
  | CtorArg.latentInfo :: rest => firstObjArgWorld rest
  | CtorArg.other :: rest => firstObjArgWorld rest

/-- The claim's resolution rule, stated from its words: take the context of
the first owning-object argument encountered; if that yields no context,
fall back to `GWorld`; fatal if still missing. -/
def resolveWorldClaim (gworld : Option Nat) (args : List CtorArg) : InitResult :=
  match firstObjArgWorld args with
  | some w => InitResult.ok w
  | none =>
      match gworld with
      | some w => InitResult.ok w
      | none => InitResult.fatalNoWorld

/-- The world yielded by the first `UObject`-convertible argument whose
`GetWorld()` is non-null — what the left-to-right scan actually computes. -/
def firstYieldedWorld : List CtorArg → Option Nat
  | [] => none
  | CtorArg.obj (some w) :: _ => some w
  | CtorArg.obj none :: rest => firstYieldedWorld rest
  | CtorArg.latentInfo :: rest => firstYieldedWorld rest
  | CtorArg.other :: rest => firstYieldedWorld rest

/-! ## TAbilityPromise (AbilityPromises.cpp) -/

/-- Observable events of the `TAbilityPromise<T>` constructor body, in
order. -/
inductive AbilityEvent where
  | flagCleared
  | coroutineStarting
deriving DecidableEq, Repr

/-- The constructor `TAbilityPromise<T>::TAbilityPromise(T& Target)`:
`checkf(bCalledFromActivate, "Do not call Execute coroutines directly!")` —
fatal (`none`) when the static flag is unset; otherwise the flag is reset to
`false` and then `Target.CoroutineStarting(this)` is called.  Returns the
new flag value and the event trace. -/
def tAbilityPromiseCtor (bCalledFromActivate : Bool) :
    Option (Bool × List AbilityEvent) :=
  if bCalledFromActivate then
    some (false, [AbilityEvent.flagCleared, AbilityEvent.coroutineStarting])
  else none

/-! ## Helper lemmas -/

/-- Once the counter is at or below zero, further completions only keep
decrementing it: no index is recorded and no resume happens. -/
theorem aggRun_spent (l : List Int) (s : AggState) (h : s.count ≤ 0) :
    aggRun s l = { s with count := s.count - l.length } := by
  induction l generalizing s with
  | nil =>
      simp [aggRun]
  | cons i rest ih =>
      have hc : ¬(s.count - 1 = 0) := by omega
      have h1 : aggRun s (i :: rest) = aggRun { s with count := s.count - 1 } rest := by
        simp [aggRun, consumeFinish, hc]
      rw [h1, ih { s with count := s.count - 1 } (by simp; omega)]
      simp
      omega

/-- While strictly more completions are still outstanding than the list
provides, the run only decrements the counter: no resume, no index. -/
theorem aggRun_pending (l : List Int) (s : AggState)
    (h : (l.length : Int) < s.count) :
    aggRun s l = { s with count := s.count - l.length } := by
  induction l generalizing s with
  | nil =>
      simp [aggRun]
  | cons i rest ih =>
      have hc : ¬(s.count - 1 = 0) := by
        simp at h
        omega
      have h1 : aggRun s (i :: rest) = aggRun { s with count := s.count - 1 } rest := by
        simp [aggRun, consumeFinish, hc]
      rw [h1, ih { s with count := s.count - 1 } (by simp at h ⊢; omega)]
      simp
      omega

/-- When the completion list is exactly as long as the outstanding count and
the parent handle is registered, the run ends with count zero and exactly
one additional resume. -/
theorem aggRun_exact (l : List Int) (s : AggState) (hpos : 0 < s.count)
    (hlen : (l.length : Int) = s.count) (hh : s.handle = some ()) :
    (aggRun s l).resumes = s.resumes + 1 ∧ (aggRun s l).count = 0 := by
  induction l generalizing s with
  | nil =>
      simp at hlen
      omega
  | cons i rest ih =>
      by_cases hr : rest = []
      · subst hr
        have h1 : s.count = 1 := by simp at hlen; omega
        have h2 : s.count - 1 = 0 := by omega
        simp [aggRun, consumeFinish, h2, hh]
      · have hrest : 0 < rest.length := List.length_pos.mpr hr
        have hc : ¬(s.count - 1 = 0) := by
          simp at hlen
          omega
        have h1 : aggRun s (i :: rest) = aggRun { s with count := s.count - 1 } rest := by
          simp [aggRun, consumeFinish, hc]
        rw [h1]
        have := ih { s with count := s.count - 1 }
          (by simp; simp at hlen; omega)
          (by simp; simp at hlen; omega)
          (by simpa using hh)
        simpa using this

/-- Scanning with the world already resolved never overwrites it. -/
theorem scanWorld_some (args : List CtorArg) (w : Nat) :
    scanWorld (some w) args = some w := by
  induction args with
  | nil => rfl
  | cons a rest ih =>
      cases a with
      | obj ow => simpa [scanWorld] using ih
      | latentInfo => simpa [scanWorld] using ih
      | other => simpa [scanWorld] using ih

/-- The left-to-right scan computes the world of the first
`UObject`-convertible argument whose `GetWorld()` is non-null. -/
theorem scanWorld_none (args : List CtorArg) :
    scanWorld none args = firstYieldedWorld args := by
  induction args with
  | nil => rfl
  | cons a rest ih =>
      cases a with
      | obj ow =>
          cases ow with
          | none => simpa [scanWorld, firstYieldedWorld] using ih
          | some w => simp [scanWorld, firstYieldedWorld, scanWorld_some]
      | latentInfo => simpa [scanWorld, firstYieldedWorld] using ih
      | other => simpa [scanWorld, firstYieldedWorld] using ih

/-! ## Claim theorems -/

/-- C1: at a latent coroutine start, `initial_suspend` produces exactly one
of two outcomes for the given (callback target, linkage id) pair: if the
action manager already holds a pending action for that pair or the callback
target is invalid, the frame is destroyed and the manager is left untouched
(no registration, body never runs); otherwise the pending-action bridge is
registered and the body is resumed.  Never both, never neither. -/
theorem initialSuspend_start_dichotomy (lam : LAMState) (info : FLatentActionInfo) :
    latentStart lam info =
      (if findExistingAction lam info.callbackTarget info.uuid = true
          ∨ info.callbackTargetValid = false
       then (EStartOutcome.FrameDestroyed, lam)
       else (EStartOutcome.BodyResumed, (info.callbackTarget, info.uuid) :: lam)) ∧
    ((latentStart lam info = (EStartOutcome.FrameDestroyed, lam) ∧
      ¬latentStart lam info =
        (EStartOutcome.BodyResumed, (info.callbackTarget, info.uuid) :: lam)) ∨
     (latentStart lam info =
        (EStartOutcome.BodyResumed, (info.callbackTarget, info.uuid) :: lam) ∧
      ¬latentStart lam info = (EStartOutcome.FrameDestroyed, lam))) := by
  have hmain : latentStart lam info =
      (if findExistingAction lam info.callbackTarget info.uuid = true
          ∨ info.callbackTargetValid = false
       then (EStartOutcome.FrameDestroyed, lam)
       else (EStartOutcome.BodyResumed, (info.callbackTarget, info.uuid) :: lam)) := by
    by_cases h1 : findExistingAction lam info.callbackTarget info.uuid
    · simp [latentStart, initialSuspend, h1, awaitSuspendOutcome]
    · by_cases h2 : info.callbackTargetValid
      · simp [latentStart, initialSuspend, h1, h2, awaitSuspendOutcome]
      · simp [latentStart, initialSuspend, h1, h2, awaitSuspendOutcome]
  refine ⟨hmain, ?_⟩
  by_cases hc : findExistingAction lam info.callbackTarget info.uuid = true
      ∨ info.callbackTargetValid = false
  · left
    rw [hmain]
    simp [hc]
  · right
    rw [hmain]
    simp [hc]

/-- C2: `WhenAny` initializes the shared counter to 1 when there are
children and to 0 when there are none; with the parent suspended, the parent
is resumed exactly once, already upon the first child completion, and
`FAnyAwaiter::await_resume` returns the index of the child whose decrement
drove the counter to zero — the first completer. -/
theorem whenAny_resumes_once_first_child (n : Nat) (i : Int) (rest : List Int)
    (hlen : (i :: rest).length = n) :
    whenAnyInitialCount n = 1 ∧
    whenAnyInitialCount 0 = 0 ∧
    (aggRun (aggAwait_suspend (aggInit (whenAnyInitialCount n))) [i]).resumes = 1 ∧
    (aggRun (aggAwait_suspend (aggInit (whenAnyInitialCount n))) (i :: rest)).resumes = 1 ∧
    anyAwait_resume
      (aggRun (aggAwait_suspend (aggInit (whenAnyInitialCount n))) (i :: rest)) = i := by
  have hn : n ≠ 0 := by
    simp at hlen
    omega
  have hcount : whenAnyInitialCount n = 1 := by simp [whenAnyInitialCount, hn]
  have hs0 : aggAwait_suspend (aggInit (whenAnyInitialCount n)) =
      ⟨1, -1, some (), 0⟩ := by
    simp [aggAwait_suspend, aggInit, hcount]
  have hstep : consumeFinish i (⟨1, -1, some (), 0⟩ : AggState) =
      ⟨0, i, some (), 1⟩ := by
    simp [consumeFinish]
  have hcons : ∀ l : List Int,
      aggRun (⟨1, -1, some (), 0⟩ : AggState) (i :: l) =
        aggRun (⟨0, i, some (), 1⟩ : AggState) l := by
    intro l
    simp [aggRun, hstep]
  have hrest := aggRun_spent rest (⟨0, i, some (), 1⟩ : AggState) (by norm_num)
  have hone := aggRun_spent [] (⟨0, i, some (), 1⟩ : AggState) (by norm_num)
  refine ⟨hcount, by simp [whenAnyInitialCount], ?_, ?_, ?_⟩
  · rw [hs0, hcons [], hone]
  · rw [hs0, hcons rest, hrest]
  · rw [hs0, hcons rest, hrest]
    simp [anyAwait_resume, getResumerIndex]

/-- C3: `WhenAll` initializes the shared counter to the child count `n`; the
aggregate is immediately ready for `n = 0`; with the parent suspended, no
resume has happened after any proper initial segment of the child
completions, and the parent has been resumed exactly once after all `n`
children completed. -/
theorem whenAll_resumes_once_after_all (n k : Nat) (order : List Int)
    (hlen : order.length = n) (hk : k < n) :
    whenAllInitialCount n = (n : Int) ∧
    aggAwait_ready (aggInit (whenAllInitialCount 0)) = true ∧
    (aggRun (aggAwait_suspend (aggInit (whenAllInitialCount n)))
      (order.take k)).resumes = 0 ∧
    (aggRun (aggAwait_suspend (aggInit (whenAllInitialCount n))) order).resumes = 1 := by
  have hs0 : aggAwait_suspend (aggInit (whenAllInitialCount n)) =
      ⟨(n : Int), -1, some (), 0⟩ := by
    simp [aggAwait_suspend, aggInit, whenAllInitialCount]
  have htklen : (order.take k).length = k := by
    rw [List.length_take]
    omega
  have hpend := aggRun_pending (order.take k) (⟨(n : Int), -1, some (), 0⟩ : AggState)
    (by simp [htklen]; exact_mod_cast hk)
  have hexact := aggRun_exact order (⟨(n : Int), -1, some (), 0⟩ : AggState)
    (by simp; omega) (by simp [hlen]) (by simp)
  refine ⟨rfl, by simp [aggAwait_ready, aggInit, whenAllInitialCount], ?_, ?_⟩
  · rw [hs0, hpend]
  · rw [hs0]
    exact hexact.1

/-- Witness for C2: three children, child 2 completes first. -/
theorem whenAny_resumes_once_first_child_witness :
    (((2 : Int) :: [0, 1]).length = 3) ∧
    (whenAnyInitialCount 3 = 1 ∧
     whenAnyInitialCount 0 = 0 ∧
     (aggRun (aggAwait_suspend (aggInit (whenAnyInitialCount 3))) [(2 : Int)]).resumes = 1 ∧
     (aggRun (aggAwait_suspend (aggInit (whenAnyInitialCount 3)))
       ((2 : Int) :: [0, 1])).resumes = 1 ∧
     anyAwait_resume
       (aggRun (aggAwait_suspend (aggInit (whenAnyInitialCount 3)))
         ((2 : Int) :: [0, 1])) = 2) :=
  ⟨by decide, whenAny_resumes_once_first_child 3 2 [0, 1] (by decide)⟩

/-- Witness for C3: two children completing in order 0 then 1. -/
theorem whenAll_resumes_once_after_all_witness :
    (([0, 1] : List Int).length = 2) ∧ 1 < 2 ∧
    (whenAllInitialCount 2 = (2 : Int) ∧
     aggAwait_ready (aggInit (whenAllInitialCount 0)) = true ∧
     (aggRun (aggAwait_suspend (aggInit (whenAllInitialCount 2)))
       (([0, 1] : List Int).take 1)).resumes = 0 ∧
     (aggRun (aggAwait_suspend (aggInit (whenAllInitialCount 2)))
       ([0, 1] : List Int)).resumes = 1) :=
  ⟨by decide, by decide, whenAll_resumes_once_after_all 2 1 [0, 1] (by decide) (by decide)⟩

/-- C4: while `LF_Detached` is set on a canceled latent coroutine that has
not reached final suspend, `Respond` produces no cancellation-triggered
effect (the fresh per-frame response is returned unchanged — in particular
not marked done); a forced-resume request (`Resume(true)`) is deferred to
the guaranteed later resume; and a plain game-thread `Resume` re-attaches
(clearing `LF_Detached`) and hands the still-canceled state to the base
resume in the same call, which applies the held cancellation synchronously
by destroying instead of running the body. -/
theorem detached_cancellation_held (s : LatentPromiseState)
    (info : FLatentActionInfo)
    (hdet : s.flags.detached = true) (hcan : s.bCanceled = true)
    (hfin : s.flags.inFinalSuspend = false) :
    respond s info freshResponse = freshResponse ∧
    latentResume true true s = LatentResumeResult.deferred ∧
    latentResume true false s =
      LatentResumeResult.delegated (attachToGameThread s) false ∧
    (attachToGameThread s).flags.detached = false ∧
    (attachToGameThread s).bCanceled = true ∧
    basePromiseResume (attachToGameThread s) =
      BaseResumeEffect.destroyedByCancellation := by
  refine ⟨?_, ?_, ?_, ?_, ?_, ?_⟩
  · simp [respond, hdet, hfin, freshResponse]
  · simp [latentResume, hdet, hcan]
  · simp [latentResume, hdet]
  · simp [attachToGameThread]
  · simp [attachToGameThread, hcan]
  · simp [basePromiseResume, attachToGameThread, hcan]

/-- Witness for C4: a detached, canceled, not-yet-final promise. -/
theorem detached_cancellation_held_witness :
    ((⟨⟨true, false⟩, true, ELatentExitReason.Normal⟩ :
        LatentPromiseState).flags.detached = true) ∧
    ((⟨⟨true, false⟩, true, ELatentExitReason.Normal⟩ :
        LatentPromiseState).bCanceled = true) ∧
    ((⟨⟨true, false⟩, true, ELatentExitReason.Normal⟩ :
        LatentPromiseState).flags.inFinalSuspend = false) ∧
    (respond ⟨⟨true, false⟩, true, ELatentExitReason.Normal⟩
        ⟨"f", 0, 5, true, 1⟩ freshResponse = freshResponse ∧
     latentResume true true ⟨⟨true, false⟩, true, ELatentExitReason.Normal⟩ =
       LatentResumeResult.deferred ∧
     latentResume true false ⟨⟨true, false⟩, true, ELatentExitReason.Normal⟩ =
       LatentResumeResult.delegated
         (attachToGameThread ⟨⟨true, false⟩, true, ELatentExitReason.Normal⟩) false ∧
     (attachToGameThread
        ⟨⟨true, false⟩, true, ELatentExitReason.Normal⟩).flags.detached = false ∧
     (attachToGameThread
        ⟨⟨true, false⟩, true, ELatentExitReason.Normal⟩).bCanceled = true ∧
     basePromiseResume
        (attachToGameThread ⟨⟨true, false⟩, true, ELatentExitReason.Normal⟩) =
       BaseResumeEffect.destroyedByCancellation) :=
  ⟨rfl, rfl, rfl,
   detached_cancellation_held ⟨⟨true, false⟩, true, ELatentExitReason.Normal⟩
     ⟨"f", 0, 5, true, 1⟩ rfl rfl rfl⟩

/-- C5: on a per-frame tick of the bridge with a live promise, a ready
current awaiter is cleared and the promise resumed before the response is
computed (the tick's state and awaiter come from `resumeThenBody`, and an
absent or not-ready awaiter leaves both untouched); the response marks the
action done iff the post-resume state is canceled-and-attached or in final
suspend, and triggers the (ExecutionFunction, Linkage, CallbackTarget) link
iff final suspend was reached. -/
theorem updateOperation_tick_spec
    (body : LatentPromiseState → LatentPromiseState × Option Bool)
    (s : LatentPromiseState) (aw : Option Bool) (info : FLatentActionInfo) :
    ((updateOperation body true s aw info).2.2.done = true ↔
      ((updateOperation body true s aw info).1.bCanceled = true ∧
       (updateOperation body true s aw info).1.flags.detached = false) ∨
      (updateOperation body true s aw info).1.flags.inFinalSuspend = true) ∧
    ((updateOperation body true s aw info).2.2.triggeredLinks =
      if (updateOperation body true s aw info).1.flags.inFinalSuspend then
        [(info.executionFunction, info.linkage, info.callbackTarget)]
      else []) ∧
    (aw = some true →
      ((updateOperation body true s aw info).1,
       (updateOperation body true s aw info).2.1) = resumeThenBody body s) ∧
    (aw ≠ some true →
      (updateOperation body true s aw info).1 = s ∧
      (updateOperation body true s aw info).2.1 = aw) := by
  have hresp : ∀ t : LatentPromiseState,
      ((respond t info freshResponse).done = true ↔
        (t.bCanceled = true ∧ t.flags.detached = false) ∨
        t.flags.inFinalSuspend = true) ∧
      ((respond t info freshResponse).triggeredLinks =
        if t.flags.inFinalSuspend then
          [(info.executionFunction, info.linkage, info.callbackTarget)]
        else []) := by
    intro t
    constructor
    · by_cases hf : t.flags.inFinalSuspend
      · simp [respond, hf, freshResponse]
      · by_cases hc : t.bCanceled
        · by_cases hd : t.flags.detached
          · simp [respond, hf, hc, hd, freshResponse]
          · simp [respond, hf, hc, hd, freshResponse]
        · simp [respond, hf, hc, freshResponse]
    · by_cases hf : t.flags.inFinalSuspend
      · simp [respond, hf, freshResponse]
      · simp [respond, hf, freshResponse]
        split <;> rfl
  by_cases ha : aw = some true
  · have hu : updateOperation body true s aw info =
        ((resumeThenBody body s).1, (resumeThenBody body s).2,
         respond (resumeThenBody body s).1 info freshResponse) := by
      simp [updateOperation, ha]
    rw [hu]
    exact ⟨(hresp _).1, (hresp _).2, fun _ => rfl, fun h => absurd ha h⟩
  · have hu : updateOperation body true s aw info =
        (s, aw, respond s info freshResponse) := by
      simp [updateOperation, ha]
    rw [hu]
    exact ⟨(hresp _).1, (hresp _).2, fun h => absurd h ha, fun _ => ⟨rfl, rfl⟩⟩

/-- Witness for C5: a ready awaiter whose resume drives the body to final
suspend, with a body that installs no new awaiter. -/
theorem updateOperation_tick_spec_witness :
    ((updateOperation (fun t => (finalSuspend t, none)) true
        ⟨⟨false, false⟩, false, ELatentExitReason.Normal⟩ (some true)
        ⟨"f", 3, 5, true, 1⟩).2.2.done = true ↔
      ((updateOperation (fun t => (finalSuspend t, none)) true
        ⟨⟨false, false⟩, false, ELatentExitReason.Normal⟩ (some true)
        ⟨"f", 3, 5, true, 1⟩).1.bCanceled = true ∧
       (updateOperation (fun t => (finalSuspend t, none)) true
        ⟨⟨false, false⟩, false, ELatentExitReason.Normal⟩ (some true)
        ⟨"f", 3, 5, true, 1⟩).1.flags.detached = false) ∨
      (updateOperation (fun t => (finalSuspend t, none)) true
        ⟨⟨false, false⟩, false, ELatentExitReason.Normal⟩ (some true)
        ⟨"f", 3, 5, true, 1⟩).1.flags.inFinalSuspend = true) :=
  (updateOperation_tick_spec (fun t => (finalSuspend t, none))
    ⟨⟨false, false⟩, false, ELatentExitReason.Normal⟩ (some true)
    ⟨"f", 3, 5, true, 1⟩).1

/-- C6: `final_suspend` overwrites the whole atomic flags field with exactly
`InFinalSuspend` — afterwards `Detached` is false and `InFinalSuspend` is
true regardless of the prior value — and the promise's resume entry point
performs no further flag or state transition on such a state: it either
fails its internal check or hands the state over unchanged (and `Respond`
never writes promise state at all, by its type). -/
theorem finalSuspend_overwrites_terminally (s : LatentPromiseState) (g b : Bool) :
    (finalSuspend s).flags = { detached := false, inFinalSuspend := true } ∧
    (latentResume g b (finalSuspend s) = LatentResumeResult.checkFailed ∨
     latentResume g b (finalSuspend s) =
       LatentResumeResult.delegated (finalSuspend s) b) := by
  refine ⟨rfl, ?_⟩
  by_cases hchk : b ∧ ¬(g ∧ s.bCanceled)
  · left
    simp [latentResume, finalSuspend] at hchk ⊢
    tauto
  · right
    simp [latentResume, finalSuspend] at hchk ⊢
    tauto

/-- C7: `ThreadSafeDestroy` invoked off the frame-tick thread re-posts and
destroys nothing; on the frame-tick thread it writes the promise's exit
reason into `GLatentExitReason`, destroys the handle, and its `checkf` that
the global is back to `Normal` holds, because `~FLatentPromise` (run inside
the handle destroy) always resets the global to `Normal`. -/
theorem threadSafeDestroy_repost_and_restore (reason : ELatentExitReason)
    (g : GlobalState) :
    threadSafeDestroy false reason g = TSDOutcome.reposted ∧
    threadSafeDestroy true reason g =
      TSDOutcome.destroyed { gLatentExitReason := ELatentExitReason.Normal } true ∧
    latentPromiseDtor { gLatentExitReason := reason } =
      { gLatentExitReason := ELatentExitReason.Normal } := by
  refine ⟨rfl, ?_, rfl⟩
  simp [threadSafeDestroy, handleDestroy, latentPromiseDtor]

/-- C8 counterexample: with `GWorld = some 7` and the argument list
(`UObject` whose `GetWorld()` is null, `UObject` whose `GetWorld()` is
world 5), the scan resolves world 5 — taken from the *second*
owning-object argument — whereas the claim's rule ("resolved from the first
owning-object argument encountered", falling back to `GWorld` when that
yields no context) would resolve the global fallback 7. -/
theorem resolveWorld_not_first_arg :
    resolveWorld (some 7) [CtorArg.obj none, CtorArg.obj (some 5)] =
      InitResult.ok 5 ∧
    resolveWorldClaim (some 7) [CtorArg.obj none, CtorArg.obj (some 5)] =
      InitResult.ok 7 ∧
    resolveWorld (some 7) [CtorArg.obj none, CtorArg.obj (some 5)] ≠
      resolveWorldClaim (some 7) [CtorArg.obj none, CtorArg.obj (some 5)] := by
  refine ⟨rfl, rfl, ?_⟩
  decide

/-- C8 (amended): the constructor arguments are scanned left-to-right and
the world pointer is resolved from the first owning-object
(`UObject`-convertible) argument whose context lookup (`GetWorld()`) yields
a non-null world; if no argument yields one, the promise falls back to the
process-global current context (`GWorld`), and a still-missing context after
that fallback is the fatal error
`checkf(World, "Could not determine world for latent coroutine")`. -/
theorem resolveWorld_first_yielding_arg (gworld : Option Nat) (args : List CtorArg) :
    resolveWorld gworld args =
      (match firstYieldedWorld args with
       | some w => InitResult.ok w
       | none =>
           match gworld with
           | some w => InitResult.ok w
           | none => InitResult.fatalNoWorld) := by
  unfold resolveWorld
  rw [scanWorld_none]

/-- C9: `SetExitReason` is write-once: starting from `Normal`, recording a
non-`Normal` reason succeeds, and any further `SetExitReason` on the
now-non-`Normal` reason fails the internal
`checkf(ExitReason == ELatentExitReason::Normal, ...)` — in particular the
bridge's two notification callbacks record at most one reason between them,
and succeed when the reason is still `Normal`. -/
theorem setExitReason_write_once (r r2 : ELatentExitReason)
    (h : r ≠ ELatentExitReason.Normal) :
    setExitReason r ELatentExitReason.Normal = SetExitResult.ok r ∧
    setExitReason r2 r = SetExitResult.assertFailed ∧
    notifyActionAborted true r = SetExitResult.assertFailed ∧
    notifyObjectDestroyed true r = SetExitResult.assertFailed ∧
    notifyActionAborted true ELatentExitReason.Normal =
      SetExitResult.ok ELatentExitReason.ActionAborted := by
  refine ⟨rfl, ?_, ?_, ?_, rfl⟩
  · simp [setExitReason, h]
  · simp [notifyActionAborted, setExitReason, h]
  · simp [notifyObjectDestroyed, setExitReason, h]

/-- Witness for C9: `ActionAborted` is recorded first, then a conflicting
`ObjectDestroyed` fails the assertion. -/
theorem setExitReason_write_once_witness :
    ELatentExitReason.ActionAborted ≠ ELatentExitReason.Normal ∧
    (setExitReason ELatentExitReason.ActionAborted ELatentExitReason.Normal =
       SetExitResult.ok ELatentExitReason.ActionAborted ∧
     setExitReason ELatentExitReason.ObjectDestroyed ELatentExitReason.ActionAborted =
       SetExitResult.assertFailed ∧
     notifyActionAborted true ELatentExitReason.ActionAborted =
       SetExitResult.assertFailed ∧
     notifyObjectDestroyed true ELatentExitReason.ActionAborted =
       SetExitResult.assertFailed ∧
     notifyActionAborted true ELatentExitReason.Normal =
       SetExitResult.ok ELatentExitReason.ActionAborted) :=
  ⟨by decide,
   setExitReason_write_once ELatentExitReason.ActionAborted
     ELatentExitReason.ObjectDestroyed (by decide)⟩

/-- C10: constructing a `TAbilityPromise<T>` with the static
`bCalledFromActivate` flag unset fires the fatal check (no start); with the
flag set, the constructor clears the flag *before* notifying the target via
`CoroutineStarting` (event order in the trace), leaves the flag `false`, and
a second construction using the flag value it left behind fails the check —
each setting of the flag authorizes at most one ability-coroutine start. -/
theorem tAbilityPromiseCtor_one_shot :
    tAbilityPromiseCtor false = none ∧
    tAbilityPromiseCtor true =
      some (false, [AbilityEvent.flagCleared, AbilityEvent.coroutineStarting]) ∧
    (match tAbilityPromiseCtor true with
     | some (flagAfter, _) => tAbilityPromiseCtor flagAfter
     | none => none) = none := by
  decide
